import Mathlib

/-
Verification of the occlude OPAQUE implementation (pake.go and its
primitives file) against its natural-language specification.

Modelling conventions:

* The Ristretto group is a prime-order cyclic group of order q with
  generator g; we work over an arbitrary order `q` (prime where a theorem
  needs it).  A group element is represented by its discrete logarithm
  with respect to g, so `Element q := ZMod q`; this representation is an
  exact group isomorphism.  `ScalarBaseMult s` is the element of discrete
  log `s`; `ScalarMult k P` multiplies the discrete log by `k`;
  `Scalar.Invert` is inversion mod q (`0` maps to `0`, as in
  ristretto255).

* Byte strings are modelled symbolically by the inductive type `Bytes`:
  each cryptographic primitive used by the Go code (SHA3-512, SHA3-256,
  Argon2id with the fixed parameters, the two 32-byte outputs of the
  HKDF-SHA3-512 stream, HMAC-SHA3-256, keyed BLAKE2b-256, XOR with the
  AES-CTR zero-IV keystream, canonical scalar/element encodings, JSON
  marshalling of ciphertextData) is a free constructor recording exactly
  its inputs.  Distinct constructor applications denote distinct byte
  strings; this is the standard symbolic model in which collision
  resistance and PRF security of the primitives are idealized.

* Go maps are functions `String -> Option _` with pointwise update; the
  internally sampled random scalars are passed as explicit arguments
  (derandomization); a Go nil-pointer dereference (runtime panic) is the
  `none` value of an outer `Option` layer; Go `error` returns are
  `Except PakeError`.
-/

namespace Occlude

/-- Scalars of the prime-order group (Zq). -/
abbrev Scalar (q : Nat) := ZMod q

/-- Group elements, represented by their discrete logarithm with respect to
the generator g.  This representation is an exact isomorphism for a cyclic
group of order q. -/
abbrev Element (q : Nat) := ZMod q

/-- Element.ScalarBaseMult: the element g^s, i.e. discrete log s. -/
def scalarBaseMult {q : Nat} (s : Scalar q) : Element q := s

/-- Element.ScalarMult(k, P): the element P^k, i.e. discrete log k * log P. -/
def scalarMult {q : Nat} (k : Scalar q) (P : Element q) : Element q := k * P

/-- Scalar.Invert: ristretto255 computes the inverse by the constant-time
exponentiation r^(q-2) (Fermat), which is the field inverse for prime q
and maps 0 to 0. -/
def scalarInvert {q : Nat} (r : Scalar q) : Scalar q := r ^ (q - 2)

/-- Symbolic byte strings.  Each cryptographic primitive invoked by the Go
sources is a free constructor recording its inputs. -/
inductive Bytes (q : Nat) : Type where
  /-- a byte-string literal coming from a Go string, such as a password -/
  | str : String → Bytes q
  /-- a byte-list literal, such as the one-byte PRF labels 0, 1, 2 -/
  | lit : List Nat → Bytes q
  /-- canonical 32-byte encoding of a group element (Element.Encode) -/
  | encElem : ZMod q → Bytes q
  /-- canonical 32-byte encoding of a scalar (Scalar.Encode) -/
  | encScalar : ZMod q → Bytes q
  /-- concatenation of two byte strings (Go append) -/
  | append : Bytes q → Bytes q → Bytes q
  /-- sha3.Sum512 -/
  | sha3_512 : Bytes q → Bytes q
  /-- sha3.Sum256 -/
  | sha3_256 : Bytes q → Bytes q
  /-- argon2.IDKey with time 3, memory 1e5, parallelism 4, 32-byte output,
  nil salt -/
  | argon2id : Bytes q → Bytes q
  /-- first 32 bytes read from the HKDF-SHA3-512 stream (nil salt, nil
  info) keyed by the argument: the cipherKey of deriveHKDFKeys -/
  | hkdfCipherKey : Bytes q → Bytes q
  /-- next 32 bytes of the same HKDF stream: the authKey of
  deriveHKDFKeys -/
  | hkdfAuthKey : Bytes q → Bytes q
  /-- HMAC-SHA3-256 of the second argument under the first-argument key -/
  | hmacSha3_256 : Bytes q → Bytes q → Bytes q
  /-- keyed BLAKE2b-256 of the second argument under the first-argument
  32-byte key -/
  | blake2b256 : Bytes q → Bytes q → Bytes q
  /-- XOR of the second argument with the AES-CTR keystream (zero IV) for
  the first-argument key -/
  | aesCtrXor : Bytes q → Bytes q → Bytes q
  /-- json.Marshal of a ciphertextData record: the canonical encodings of
  the scalar pu and the elements Pu and Ps in three tagged JSON fields -/
  | marshalCtd : ZMod q → ZMod q → ZMod q → Bytes q
  deriving DecidableEq, Repr

/-- a structural numeric digest of a symbolic byte string, used only to
give hash-to-group a concrete executable value. -/
def Bytes.hashNat {q : Nat} : Bytes q → Nat
  | .str s => Nat.pair 0 (s.data.foldl (fun a c => a * 1114112 + c.toNat) 1)
  | .lit l => Nat.pair 1 (l.foldl (fun a n => Nat.pair a n) 0)
  | .encElem e => Nat.pair 2 e.val
  | .encScalar e => Nat.pair 3 e.val
  | .append a b => Nat.pair 4 (Nat.pair a.hashNat b.hashNat)
  | .sha3_512 a => Nat.pair 5 a.hashNat
  | .sha3_256 a => Nat.pair 6 a.hashNat
  | .argon2id a => Nat.pair 7 a.hashNat
  | .hkdfCipherKey a => Nat.pair 8 a.hashNat
  | .hkdfAuthKey a => Nat.pair 9 a.hashNat
  | .hmacSha3_256 k m => Nat.pair 10 (Nat.pair k.hashNat m.hashNat)
  | .blake2b256 k m => Nat.pair 11 (Nat.pair k.hashNat m.hashNat)
  | .aesCtrXor k d => Nat.pair 12 (Nat.pair k.hashNat d.hashNat)
  | .marshalCtd a b c => Nat.pair 13 (Nat.pair a.val (Nat.pair b.val c.val))

/-- Element.FromUniformBytes: hash-to-group (Elligator2 on the 64-byte
input).  The protocol only needs this map to be a deterministic function
into the group; it is modelled by reducing a structural digest mod q. -/
def fromUniformBytes {q : Nat} (b : Bytes q) : Element q :=
  (Bytes.hashNat b : ZMod q)

/-- XOR with the AES-CTR zero-IV keystream of the given key, as performed
by ctr.XORKeyStream in both Client.NewRegistration (encryption) and
Client.SessionKey (decryption).  Symbolically: applying the keystream of
the same key twice restores the data; any other application is an opaque
`aesCtrXor` term. -/
def xorKeystream {q : Nat} (key data : Bytes q) : Bytes q :=
  match data with
  | .aesCtrXor k d => if k = key then d else .aesCtrXor key (.aesCtrXor k d)
  | d => .aesCtrXor key d

/-- hash.Hash.Sum for an HMAC-SHA3-256 state holding `key` to which the
data `written` has been Written so far: Go's Sum appends the MAC of the
written data to its argument `b` and returns the result (it does not MAC
`b` itself). -/
def hmacSha3Sum {q : Nat} (key written b : Bytes q) : Bytes q :=
  .append b (.hmacSha3_256 key written)

/-- decidable equality for Except, used to evaluate the model on concrete
inputs. -/
instance {ε α : Type} [DecidableEq ε] [DecidableEq α] :
    DecidableEq (Except ε α) := fun a b =>
  match a, b with
  | .error e1, .error e2 =>
    if h : e1 = e2 then isTrue (by rw [h])
    else isFalse (fun hh => by cases hh; exact h rfl)
  | .ok v1, .ok v2 =>
    if h : v1 = v2 then isTrue (by rw [h])
    else isFalse (fun hh => by cases hh; exact h rfl)
  | .error _, .ok _ => isFalse (fun hh => Except.noConfusion hh)
  | .ok _, .error _ => isFalse (fun hh => Except.noConfusion hh)

/-- errors returned by the occlude functions (Go errors.New values and the
json.Unmarshal error, distinguished by their message/value). -/
inductive PakeError where
  /-- Go message: no pending registration -/
  | noPendingRegistration
  /-- Go message: user already registered -/
  | userAlreadyRegistered
  /-- Go message: no such sid -/
  | noSuchSid
  /-- Go message: invalid hmac tag on server-sent c -/
  | invalidHmacTag
  /-- a json.Unmarshal error returned verbatim by Client.SessionKey -/
  | jsonUnmarshal
  /-- Go message: server authentication failed -/
  | serverAuthFailed
  deriving DecidableEq, Repr

/-- authCiphertext: a ciphertext together with its MAC tag. -/
structure authCiphertext (q : Nat) where
  Tag : Bytes q
  Ciphertext : Bytes q
  deriving DecidableEq, Repr

/-- ciphertextData: the plaintext record sealed inside the envelope. -/
structure ciphertextData (q : Nat) where
  pu : Scalar q
  Pu : Element q
  Ps : Element q
  deriving DecidableEq, Repr

/-- pendingRegistration: ks, the server key pair (Ps, ps); the value the
server returns to the client carries a nil ps (modelled by `none`). -/
structure pendingRegistration (q : Nat) where
  ks : Scalar q
  Ps : Element q
  ps : Option (Scalar q)
  deriving DecidableEq, Repr

/-- Registration: the client-to-server registration request. -/
structure Registration (q : Nat) where
  ID : String
  aci : authCiphertext q
  Pu : Element q
  deriving DecidableEq, Repr

/-- pwdFile: the per-user record stored by the server.  Its ps field is a
Go pointer copied from the pending registration, hence an Option. -/
structure pwdFile (q : Nat) where
  ks : Scalar q
  ps : Option (Scalar q)
  Ps : Element q
  Pu : Element q
  c : authCiphertext q
  deriving DecidableEq, Repr

/-- UsrSession: the client's login-start message. -/
structure UsrSession (q : Nat) where
  Alpha : Element q
  Xu : Element q
  Sid : String
  deriving DecidableEq, Repr

/-- SvrSession: the server's login response. -/
structure SvrSession (q : Nat) where
  Beta : Element q
  Xs : Element q
  fk1 : Bytes q
  c : authCiphertext q
  deriving DecidableEq, Repr

/-- Server state: the two Go maps, keyed by session identifier. -/
structure Server (q : Nat) where
  passwordFiles : String → Option (pwdFile q)
  pendingRegistrations : String → Option (pendingRegistration q)

/-- Client state: sid plus the ephemeral scalar and the blinding scalar
(Go nil pointers modelled by `none`). -/
structure Client (q : Nat) where
  Sid : String
  xu : Option (Scalar q)
  r : Option (Scalar q)
  deriving DecidableEq, Repr

/-- insertion into a Go map. -/
def storeInsert {α : Type} (m : String → Option α) (k : String)
    (v : α) : String → Option α :=
  fun k' => if k' = k then some v else m k'

/-- deletion from a Go map. -/
def storeDelete {α : Type} (m : String → Option α) (k : String) :
    String → Option α :=
  fun k' => if k' = k then none else m k'

/-- NewServer: both maps empty. -/
def NewServer (q : Nat) : Server q :=
  { passwordFiles := fun _ => none, pendingRegistrations := fun _ => none }

/-- NewClient: a fresh client with the given id and nil scalars. -/
def NewClient (q : Nat) (id : String) : Client q :=
  { Sid := id, xu := none, r := none }

/-- prf: keyed BLAKE2b-256 with a 32-byte key. -/
def prf {q : Nat} (k x : Bytes q) : Bytes q :=
  .blake2b256 k x

/-- deriveHKDFKeys: HKDF with SHA3-512, nil salt and info; the cipherKey
is read from the stream first, then the authKey; the Go function returns
(authKey, cipherKey). -/
def deriveHKDFKeys {q : Nat} (x : Bytes q) : Bytes q × Bytes q :=
  (.hkdfAuthKey x, .hkdfCipherKey x)

/-- oprfA: the direct OPRF evaluation
Argon2id(H(x, (FromUniformBytes x)^k)). -/
def oprfA {q : Nat} (x : Bytes q) (k : Scalar q) : Bytes q :=
  let hprimex := fromUniformBytes x
  let hprimexk := scalarMult k hprimex
  let hash := Bytes.sha3_512 (.append x (.encElem hprimexk))
  .argon2id hash

/-- oprfB: the client-side unblinded finalization
Argon2id(H(x, B^(1/r))). -/
def oprfB {q : Nat} (B : Element q) (r : Scalar q) (x : Bytes q) : Bytes q :=
  let rinv := scalarInvert r
  let betarinv := scalarMult rinv B
  let hash := Bytes.sha3_512 (.append x (.encElem betarinv))
  .argon2id hash

/-- keServer: the server view of the triple-DH raw shared secret,
SHA3-256((Pu^xs).Encode ++ (Xu^ps).Encode ++ (Xu^xs).Encode). -/
def keServer {q : Nat} (ps xs : Scalar q) (Pu Xu : Element q) : Bytes q :=
  let xsPu := scalarMult xs Pu
  let psXu := scalarMult ps Xu
  let xsXu := scalarMult xs Xu
  .sha3_256 (.append (.append (.encElem xsPu) (.encElem psXu)) (.encElem xsXu))

/-- keUser: the client view of the triple-DH raw shared secret,
SHA3-256((Xs^pu).Encode ++ (Ps^xu).Encode ++ (Xs^xu).Encode). -/
def keUser {q : Nat} (pu xu : Scalar q) (Ps Xs : Element q) : Bytes q :=
  let puXs := scalarMult pu Xs
  let xuPs := scalarMult xu Ps
  let xuXs := scalarMult xu Xs
  .sha3_256 (.append (.append (.encElem puXs) (.encElem xuPs)) (.encElem xuXs))

/-- clear: overwrite a byte slice with zeros.  Defined in the sources but
never invoked by any operation of the library. -/
def clear (x : List Nat) : List Nat :=
  x.map fun _ => 0

/-- Server.NewRegistration: sample ks and the static key pair (ps, Ps),
unconditionally store them under sid in pendingRegistrations, and return
a copy with a nil ps pointer together with a nil error.  The sampled
scalars ks, ps are explicit arguments (derandomization). -/
def Server.NewRegistration {q : Nat} (s : Server q) (sid : String)
    (ks ps : Scalar q) : pendingRegistration q × Server q × Option PakeError :=
  let Ps := scalarBaseMult ps
  let stored : pendingRegistration q := { ks := ks, Ps := Ps, ps := some ps }
  let s' := { s with pendingRegistrations :=
    (storeInsert s.pendingRegistrations sid stored) }
  ({ ks := ks, Ps := Ps, ps := none }, s', none)

/-- Server.Register: finalize a registration.  Returns the updated server
state together with the Go error value.  The deferred deletion of the
pending entry runs on every return path after the entry was found. -/
def Server.Register {q : Nat} (s : Server q) (reg : Registration q) :
    Server q × Option PakeError :=
  match s.pendingRegistrations reg.ID with
  | none => (s, some .noPendingRegistration)
  | some pr =>
    let s' := { s with pendingRegistrations := storeDelete s.pendingRegistrations reg.ID }
    match s'.passwordFiles reg.ID with
    | some _ => (s', some .userAlreadyRegistered)
    | none =>
      let pf : pwdFile q :=
        { ks := pr.ks, ps := pr.ps, Ps := pr.Ps, Pu := reg.Pu, c := reg.aci }
      ({ s' with passwordFiles := storeInsert s'.passwordFiles reg.ID pf }, none)

/-- Client.NewRegistration: compute rw by direct OPRF evaluation, seal
(pu, Pu, Ps) into the envelope, and emit the registration request.  The
static scalar pu is an explicit argument (derandomization).  The two Go
error returns are dead code: aes.NewCipher cannot fail on the 32-byte
cipherKey, and json.Marshal of ciphertextData cannot fail. -/
def Client.NewRegistration {q : Nat} (sinfo : pendingRegistration q)
    (username password : String) (pu : Scalar q) :
    Registration q × Option PakeError :=
  let Pu := scalarBaseMult pu
  let x := Bytes.sha3_512 (.str password)
  let rw := oprfA x sinfo.ks
  let hk := deriveHKDFKeys rw
  let hmacKey := hk.1
  let cipherKey := hk.2
  let toencrypt := Bytes.marshalCtd pu Pu sinfo.Ps
  let ctext := xorKeystream cipherKey toencrypt
  let tag := hmacSha3Sum hmacKey (.lit []) ctext
  let aci : authCiphertext q := { Tag := tag, Ciphertext := ctext }
  ({ ID := username, aci := aci, Pu := Pu }, none)

/-- sealCtd: the envelope-sealing portion of Client.NewRegistration,
abstracted over the envelope key rw and the plaintext record: derive the
keys from rw, encrypt the marshalled record with the AES-CTR zero-IV
keystream under the cipherKey, and attach the tag produced by
authHmac.Sum on the ciphertext. -/
def sealCtd {q : Nat} (rw : Bytes q) (m : ciphertextData q) : authCiphertext q :=
  let hk := deriveHKDFKeys rw
  let ctext := xorKeystream hk.2 (Bytes.marshalCtd m.pu m.Pu m.Ps)
  { Tag := hmacSha3Sum hk.1 (.lit []) ctext, Ciphertext := ctext }

/-- Client.NewSession: sample xu and the blinding scalar r (explicit
arguments), emit alpha = (FromUniformBytes (SHA3-512 pw))^r and
Xu = g^xu, and store xu and r in the client.  The Go error is always
nil. -/
def Client.NewSession {q : Nat} (c : Client q) (password : String)
    (xu r : Scalar q) : UsrSession q × Client q × Option PakeError :=
  let Xu := scalarBaseMult xu
  let x := Bytes.sha3_512 (.str password)
  let Alpha := scalarMult r (fromUniformBytes x)
  ({ Alpha := Alpha, Xu := Xu, Sid := c.Sid },
   { c with xu := some xu, r := some r }, none)

/-- Server.NewSession: look up the password file, evaluate the OPRF on
alpha, complete the triple-DH, and emit the server session message
together with the session key.  The ephemeral scalar xs is an explicit
argument.  The outer Option is the Go runtime panic: `none` models the
nil-pointer dereference of pf.ps inside keServer. -/
def Server.NewSession {q : Nat} (s : Server q) (session : UsrSession q)
    (xs : Scalar q) : Option (Except PakeError (SvrSession q × Bytes q)) :=
  match s.passwordFiles session.Sid with
  | none => some (.error .noSuchSid)
  | some pf =>
    let Xs := scalarBaseMult xs
    let beta := scalarMult pf.ks session.Alpha
    match pf.ps with
    | none => none
    | some ps =>
      let K := keServer ps xs pf.Pu session.Xu
      let SK := prf K (.lit [0])
      let fk1 := prf K (.lit [1])
      some (.ok ({ Beta := beta, Xs := Xs, fk1 := fk1, c := pf.c }, SK))

/-- unmarshalCtd: json.Unmarshal into ciphertextData.  It succeeds exactly
on a well-formed marshalled record, decoding the three canonical fields;
on any other byte string it returns an error, which Client.SessionKey
surfaces verbatim. -/
def unmarshalCtd {q : Nat} : Bytes q → Option (ciphertextData q)
  | .marshalCtd pu Pu Ps => some { pu := pu, Pu := Pu, Ps := Ps }
  | _ => none

/-- Client.SessionKey: finalize the OPRF, verify and open the envelope,
complete the triple-DH, verify fk1, and return (SK, fk2) together with
the client state after the call (the method writes no field of its
receiver).  The outer Option is the Go runtime panic: `none` models the
nil-pointer dereference of c.r inside oprfB (Invert) on a client without
a prior NewSession, and of c.xu inside keUser. -/
def Client.SessionKey {q : Nat} (c : Client q) (session : SvrSession q)
    (password : String) :
    Option (Except PakeError (Bytes q × Bytes q) × Client q) :=
  let x := Bytes.sha3_512 (.str password)
  match c.r with
  | none => none
  | some r =>
    let rw := oprfB session.Beta r x
    let hk := deriveHKDFKeys rw
    let hmacKey := hk.1
    let cipherKey := hk.2
    if hmacSha3Sum hmacKey (.lit []) session.c.Ciphertext = session.c.Tag then
      let caData := xorKeystream cipherKey session.c.Ciphertext
      match unmarshalCtd caData with
      | none => some (.error .jsonUnmarshal, c)
      | some ca =>
        match c.xu with
        | none => none
        | some xu =>
          let K := keUser ca.pu xu ca.Ps session.Xs
          let SK := prf K (.lit [0])
          let fk1 := prf K (.lit [1])
          if fk1 = session.fk1 then
            some (.ok (SK, prf K (.lit [2])), c)
          else
            some (.error .serverAuthFailed, c)
    else
      some (.error .invalidHmacTag, c)

/-- endToEnd: the honest protocol run of the test TestLogin — server
begin-registration for sid, client registration with pw, server finalize,
client login-start with pw, server login, client finalize — returning the
server session key and the client session key, or none if any step
errors or panics. -/
def endToEnd (q : Nat) (sid pw : String) (ks ps pu xu r xs : Scalar q) :
    Option (Bytes q × Bytes q) :=
  match Server.NewRegistration (NewServer q) sid ks ps with
  | (_, _, some _) => none
  | (pr, s1, none) =>
    match Client.NewRegistration pr sid pw pu with
    | (_, some _) => none
    | (reg, none) =>
      match Server.Register s1 reg with
      | (_, some _) => none
      | (s2, none) =>
        match Client.NewSession (NewClient q sid) pw xu r with
        | (_, _, some _) => none
        | (us, c1, none) =>
          match Server.NewSession s2 us xs with
          | none => none
          | some (.error _) => none
          | some (.ok (svr, skServer)) =>
            match Client.SessionKey c1 svr pw with
            | none => none
            | some (.error _, _) => none
            | some (.ok (skClient, _), _) => some (skServer, skClient)

/-- keSpecHash: the raw shared secret exactly as the specification words
it — SHA3-256 over the concatenation of the three canonical element
encodings in the fixed order (Pu*Xs) concat (Xu*Ps) concat (Xu*Xs), each
element being the DH product of the named keys (discrete logs pu*xs,
xu*ps, xu*xs). -/
def keSpecHash {q : Nat} (pu xu ps xs : Scalar q) : Bytes q :=
  .sha3_256 (.append (.append (.encElem (pu * xs)) (.encElem (xu * ps)))
    (.encElem (xu * xs)))

/-! Shared helper lemmas. -/

/-- unblinding identity on scalars: for prime q and r nonzero,
r^(q-2) * (k * (r * h)) = k * h. -/
lemma unblind_scalar {q : Nat} (hq : Nat.Prime q) (r k h : ZMod q)
    (hr : r ≠ 0) : r ^ (q - 2) * (k * (r * h)) = k * h := by
  haveI : Fact (Nat.Prime q) := ⟨hq⟩
  have hpow : r ^ (q - 2) * r = r ^ (q - 1) := by
    rw [← pow_succ]
    congr 1
    have h2 : (2 : ℕ) ≤ q := hq.two_le
    omega
  calc r ^ (q - 2) * (k * (r * h)) = (r ^ (q - 2) * r) * (k * h) := by ring
    _ = r ^ (q - 1) * (k * h) := by rw [hpow]
    _ = 1 * (k * h) := by rw [ZMod.pow_card_sub_one_eq_one hr]
    _ = k * h := one_mul _

/-- unblinding the blinded OPRF evaluation recovers the direct evaluation:
oprfB applied to ((FromUniformBytes x)^r)^k with blinding scalar r equals
oprfA applied to (x, k). -/
lemma oprfB_blind_eq_oprfA {q : Nat} (hq : Nat.Prime q) (x : Bytes q)
    (k r : Scalar q) (hr : r ≠ 0) :
    oprfB (scalarMult k (scalarMult r (fromUniformBytes x))) r x
      = oprfA x k := by
  simp only [oprfB, oprfA, scalarMult, scalarInvert]
  rw [unblind_scalar hq r k (fromUniformBytes x) hr]

/-- the two triple-DH views agree on honestly generated public keys. -/
lemma keUser_eq_keServer {q : Nat} (ps xs pu xu : Scalar q) :
    keUser pu xu (scalarBaseMult ps) (scalarBaseMult xs)
      = keServer ps xs (scalarBaseMult pu) (scalarBaseMult xu) := by
  simp only [keServer, keUser, scalarMult, scalarBaseMult]
  rw [mul_comm xs pu, mul_comm ps xu, mul_comm xs xu]

/-- the envelope of Client.NewRegistration is sealCtd of the OPRF output
and the plaintext record (pu, g^pu, Ps). -/
lemma newRegistration_aci_eq_sealCtd {q : Nat} (sinfo : pendingRegistration q)
    (username password : String) (pu : Scalar q) :
    (Client.NewRegistration sinfo username password pu).1.aci
      = sealCtd (oprfA (Bytes.sha3_512 (.str password)) sinfo.ks)
          { pu := pu, Pu := scalarBaseMult pu, Ps := sinfo.Ps } := rfl

/-! Claim theorems. -/

/-- C4: OPRF determinism.  For every password pw, nonzero blinding scalar
r, and OPRF key ks, the client-side unblinded finalization oprfB applied
to beta = alpha^ks — with alpha the blinded point emitted by
Client.NewSession — equals the server-side direct evaluation
oprfA(SHA3-512 pw, ks). -/
theorem oprf_determinism {q : Nat} (hq : Nat.Prime q) (sid pw : String)
    (xu r ks : Scalar q) (hr : r ≠ 0) :
    ∀ (us : UsrSession q) (cAfter : Client q) (e : Option PakeError),
      Client.NewSession (NewClient q sid) pw xu r = (us, cAfter, e) →
      oprfB (scalarMult ks us.Alpha) r (Bytes.sha3_512 (.str pw))
        = oprfA (Bytes.sha3_512 (.str pw)) ks := by
  intro us cAfter e h
  have hAlpha : us.Alpha
      = scalarMult r (fromUniformBytes (Bytes.sha3_512 (.str pw))) := by
    have h2 := congrArg (fun t => t.1.Alpha) h
    simpa [Client.NewSession] using h2.symm
  rw [hAlpha]
  exact oprfB_blind_eq_oprfA hq _ ks r hr

/-- witness for C4 at q = 5, pw = "pw", r = 2, ks = 3. -/
theorem oprf_determinism_witness :
    (2 : Scalar 5) ≠ 0 ∧
      oprfB
          (scalarMult (3 : Scalar 5)
            (scalarMult 2 (fromUniformBytes (Bytes.sha3_512 (.str "pw")))))
          2 (Bytes.sha3_512 (.str "pw"))
        = oprfA (Bytes.sha3_512 (.str "pw")) 3 :=
  ⟨by decide, oprf_determinism (by norm_num) "a" "pw" 1 2 3 (by decide) _ _ _ rfl⟩

/-- C5: triple-DH view agreement and hash order.  For all scalars
ps, xs, pu, xu: keServer on (g^pu, g^xu) equals keUser on (g^ps, g^xs),
and both equal the SHA3-256 of the three canonical encodings in the fixed
order (Pu times Xs), (Xu times Ps), (Xu times Xs). -/
theorem tripleDH_view_agreement {q : Nat} (ps xs pu xu : Scalar q) :
    keServer ps xs (scalarBaseMult pu) (scalarBaseMult xu)
        = keUser pu xu (scalarBaseMult ps) (scalarBaseMult xs) ∧
      keServer ps xs (scalarBaseMult pu) (scalarBaseMult xu)
          = keSpecHash pu xu ps xs ∧
      keUser pu xu (scalarBaseMult ps) (scalarBaseMult xs)
          = keSpecHash pu xu ps xs := by
  have h1 := keUser_eq_keServer ps xs pu xu
  have h2 : keUser pu xu (scalarBaseMult ps) (scalarBaseMult xs)
      = keSpecHash pu xu ps xs := rfl
  exact ⟨h1.symm, h1.symm.trans h2, h2⟩

/-- C9: begin-registration never fails and overwrites.  For every server
state and sid, Server.NewRegistration returns a nil error and
unconditionally replaces any pendingRegistrations entry for sid with the
freshly sampled (ks, ps, g^ps), leaving passwordFiles and all other
pending entries unchanged. -/
theorem begin_registration_infallible_overwrites {q : Nat} (s : Server q)
    (sid : String) (ks ps : Scalar q) :
    ∃ (pr : pendingRegistration q) (s' : Server q),
      Server.NewRegistration s sid ks ps = (pr, s', none) ∧
      pr = { ks := ks, Ps := scalarBaseMult ps, ps := none } ∧
      s'.pendingRegistrations sid
          = some { ks := ks, Ps := scalarBaseMult ps, ps := some ps } ∧
      s'.passwordFiles = s.passwordFiles ∧
      ∀ sid', sid' ≠ sid →
        s'.pendingRegistrations sid' = s.pendingRegistrations sid' := by
  refine ⟨_, _, rfl, rfl, ?_, rfl, ?_⟩
  · simp [Server.NewRegistration, storeInsert]
  · intro sid' h
    simp [Server.NewRegistration, storeInsert, h]

/-- witness for C9 at q = 5 over a server that already holds a pending
registration and a password file for "alice": begin-registration still
returns nil error and overwrites. -/
theorem begin_registration_witness :
    ((Server.NewRegistration
        (Server.Register
          ((Server.NewRegistration (NewServer 5) "alice" 2 3).2.1)
          ((Client.NewRegistration
            (Server.NewRegistration (NewServer 5) "alice" 2 3).1
            "alice" "pw" 4).1)).1
        "alice" 1 4).2.2 = none) ∧
      ((Server.NewRegistration
        (Server.Register
          ((Server.NewRegistration (NewServer 5) "alice" 2 3).2.1)
          ((Client.NewRegistration
            (Server.NewRegistration (NewServer 5) "alice" 2 3).1
            "alice" "pw" 4).1)).1
        "alice" 1 4).2.1.pendingRegistrations "alice"
        = some { ks := 1, Ps := scalarBaseMult 4, ps := some 4 }) := by
  obtain ⟨pr, s', h1, h2, h3, h4, h5⟩ :=
    begin_registration_infallible_overwrites
      (Server.Register
        ((Server.NewRegistration (NewServer 5) "alice" 2 3).2.1)
        ((Client.NewRegistration
          (Server.NewRegistration (NewServer 5) "alice" 2 3).1
          "alice" "pw" 4).1)).1
      "alice" 1 4
  rw [h1]
  exact ⟨rfl, h3⟩

/-- C10: SessionKey requires a prior NewSession.  On a fresh client (nil
r), Client.SessionKey dereferences the nil blinding scalar inside oprfB
and panics (the outer none) rather than returning an error; whenever both
stored scalars are present — as after NewSession — the call never
panics. -/
theorem sessionKey_requires_prior_session {q : Nat} :
    (∀ (sid pw : String) (svr : SvrSession q),
        Client.SessionKey (NewClient q sid) svr pw = none) ∧
      (∀ (c : Client q) (svr : SvrSession q) (pw : String) (r xu : Scalar q),
        c.r = some r → c.xu = some xu →
        (Client.SessionKey c svr pw).isSome = true) := by
  constructor
  · intro sid pw svr
    rfl
  · intro c svr pw r xu h1 h2
    unfold Client.SessionKey
    rw [h1, h2]
    dsimp only
    split
    · split
      · rfl
      · split <;> rfl
    · rfl

/-- witness for C10 at q = 5: a fresh client panics; a client holding
both scalars does not. -/
theorem sessionKey_requires_prior_session_witness :
    Client.SessionKey (NewClient 5 "a")
        (SvrSession.mk 1 1 (Bytes.lit [1])
          (authCiphertext.mk (Bytes.lit [0]) (Bytes.lit [1])) : SvrSession 5)
        "pw" = none ∧
      (Client.SessionKey (Client.mk "a" (some 1) (some 2))
        (SvrSession.mk 1 1 (Bytes.lit [1])
          (authCiphertext.mk (Bytes.lit [0]) (Bytes.lit [1])) : SvrSession 5)
        "pw").isSome = true :=
  ⟨(sessionKey_requires_prior_session (q := 5)).1 "a" "pw" _,
    (sessionKey_requires_prior_session (q := 5)).2
      (Client.mk "a" (some 1) (some 2)) _ "pw" 2 1 rfl rfl⟩

/-- C3: key-committing envelope.  No two envelope keys rw1, rw2 and
plaintext records m1, m2 can seal to the same (tag, ciphertext) pair
unless rw1 = rw2 and m1 = m2: the tag commits to the encryption key and
(through the ciphertext) to the plaintext. -/
theorem key_committing {q : Nat} :
    ∀ (rw1 rw2 : Bytes q) (m1 m2 : ciphertextData q),
      sealCtd rw1 m1 = sealCtd rw2 m2 → rw1 = rw2 ∧ m1 = m2 := by
  intro rw1 rw2 m1 m2 h
  cases m1
  cases m2
  simp only [sealCtd, deriveHKDFKeys, hmacSha3Sum, xorKeystream,
    authCiphertext.mk.injEq, Bytes.append.injEq, Bytes.aesCtrXor.injEq,
    Bytes.hmacSha3_256.injEq, Bytes.hkdfAuthKey.injEq,
    Bytes.hkdfCipherKey.injEq, Bytes.marshalCtd.injEq,
    ciphertextData.mk.injEq, and_true] at h ⊢
  obtain ⟨⟨-, hk⟩, -, hm⟩ := h
  exact ⟨hk, hm⟩

/-- witness for C3 at q = 5: equal seals force equal key and plaintext. -/
theorem key_committing_witness :
    (Bytes.lit [] : Bytes 5) = Bytes.lit [] ∧
      (ciphertextData.mk 1 2 3 : ciphertextData 5) = ciphertextData.mk 1 2 3 :=
  key_committing (Bytes.lit []) (Bytes.lit [])
    (ciphertextData.mk 1 2 3) (ciphertextData.mk 1 2 3) rfl

/-- C1: honest correctness.  For every sid, password, and every choice of
the internally sampled scalars with the blinding scalar r nonzero, the
end-to-end honest run succeeds with no error and both sides compute the
same session key SK. -/
theorem honest_correctness {q : Nat} (hq : Nat.Prime q) (sid pw : String)
    (ks ps pu xu r xs : Scalar q) (hr : r ≠ 0) :
    ∃ sk : Bytes q, endToEnd q sid pw ks ps pu xu r xs = some (sk, sk) := by
  refine ⟨prf (keServer ps xs (scalarBaseMult pu) (scalarBaseMult xu))
    (.lit [0]), ?_⟩
  have hoprf := oprfB_blind_eq_oprfA hq (Bytes.sha3_512 (.str pw)) ks r hr
  have hke := keUser_eq_keServer ps xs pu xu
  simp only [endToEnd, NewServer, NewClient, Server.NewRegistration,
    Client.NewRegistration, Server.Register, Client.NewSession,
    Server.NewSession, Client.SessionKey, deriveHKDFKeys, hmacSha3Sum,
    xorKeystream, unmarshalCtd, storeInsert, storeDelete, hoprf, hke,
    eq_self_iff_true, if_true, if_false]

/-- witness for C1 at q = 5 with sid "alice", pw "pw" and concrete
scalars (r = 2 nonzero). -/
theorem honest_correctness_witness :
    (2 : Scalar 5) ≠ 0 ∧
      ∃ sk : Bytes 5, endToEnd 5 "alice" "pw" 2 3 4 1 2 3 = some (sk, sk) :=
  ⟨by decide, honest_correctness (by norm_num) "alice" "pw" 2 3 4 1 2 3
    (by decide)⟩

/-- C2: the tag produced by the registration seal is not the HMAC of the
ciphertext.  Go's hash.Hash.Sum appends the MAC of the data written so
far — nothing was ever Written — to its byte-slice argument, so the tag
equals the ciphertext concatenated with HMAC(authKey, empty), and never
the HMAC over the ciphertext that the specification (and the code's own
key-committal comment) intends.  Evaluated at a concrete registration
(q = 5, ks = 2, pw = "pw", pu = 4). -/
theorem envelope_tag_not_hmac_of_ciphertext :
    ∃ reg : Registration 5,
      Client.NewRegistration
          { ks := 2, Ps := scalarBaseMult 3, ps := none } "alice" "pw" 4
        = (reg, none) ∧
      reg.aci.Tag
          = Bytes.append reg.aci.Ciphertext
              (Bytes.hmacSha3_256
                (Bytes.hkdfAuthKey (oprfA (Bytes.sha3_512 (.str "pw")) 2))
                (Bytes.lit [])) ∧
      reg.aci.Tag
          ≠ Bytes.hmacSha3_256
              (Bytes.hkdfAuthKey (oprfA (Bytes.sha3_512 (.str "pw")) 2))
              reg.aci.Ciphertext := by
  exact ⟨_, rfl, rfl, by decide⟩

/-- C6 counterexample: register "alice" once (one begin, one successful
finalize) at q = 5; the second finalize with the same registration
message returns the no-pending-registration error, which differs from the
duplicate-registration (user already registered) error named by the
claim. -/
theorem second_finalize_counterexample :
    (Server.Register
        (Server.Register
          ((Server.NewRegistration (NewServer 5) "alice" 2 3).2.1)
          ((Client.NewRegistration
            (Server.NewRegistration (NewServer 5) "alice" 2 3).1
            "alice" "pw" 4).1)).1
        ((Client.NewRegistration
          (Server.NewRegistration (NewServer 5) "alice" 2 3).1
          "alice" "pw" 4).1)).2
      = some PakeError.noPendingRegistration ∧
      PakeError.noPendingRegistration ≠ PakeError.userAlreadyRegistered := by
  constructor
  · simp [Server.NewRegistration, Client.NewRegistration, Server.Register,
      NewServer, storeInsert, storeDelete]
  · decide

/-- C6 (amended): if sid is registered once — one begin followed by one
successful finalize — then invoking finalize a second time with the same
registration message returns the NoPendingRegistration error (the
deferred delete removed the pending entry on the first finalize), not
DuplicateRegistration. -/
theorem second_finalize_returns_no_pending {q : Nat} (s0 : Server q)
    (sid pw : String) (ks ps pu : Scalar q)
    (hfile : s0.passwordFiles sid = none) :
    (Server.Register ((Server.NewRegistration s0 sid ks ps).2.1)
        ((Client.NewRegistration
          (Server.NewRegistration s0 sid ks ps).1 sid pw pu).1)).2 = none ∧
      (Server.Register
          (Server.Register ((Server.NewRegistration s0 sid ks ps).2.1)
            ((Client.NewRegistration
              (Server.NewRegistration s0 sid ks ps).1 sid pw pu).1)).1
          ((Client.NewRegistration
            (Server.NewRegistration s0 sid ks ps).1 sid pw pu).1)).2
        = some PakeError.noPendingRegistration := by
  constructor <;>
    simp [Server.NewRegistration, Client.NewRegistration, Server.Register,
      storeInsert, storeDelete, hfile]

/-- witness for the amended C6 at q = 5 with a fresh server. -/
theorem second_finalize_returns_no_pending_witness :
    (Server.Register ((Server.NewRegistration (NewServer 5) "bob" 2 3).2.1)
        ((Client.NewRegistration
          (Server.NewRegistration (NewServer 5) "bob" 2 3).1
          "bob" "pw" 4).1)).2 = none ∧
      (Server.Register
          (Server.Register ((Server.NewRegistration (NewServer 5) "bob" 2 3).2.1)
            ((Client.NewRegistration
              (Server.NewRegistration (NewServer 5) "bob" 2 3).1
              "bob" "pw" 4).1)).1
          ((Client.NewRegistration
            (Server.NewRegistration (NewServer 5) "bob" 2 3).1
            "bob" "pw" 4).1)).2
        = some PakeError.noPendingRegistration :=
  second_finalize_returns_no_pending (NewServer 5) "bob" "pw" 2 3 4 rfl

/-- C7 counterexample: two concrete client-side verification failures of
Client.SessionKey return different error values — tag mismatch yields
invalidHmacTag while fk1 mismatch yields serverAuthFailed — so the
failure causes are distinguishable by the returned error, refuting the
single-opaque-error claim. -/
theorem client_failures_distinguishable :
    (Client.SessionKey (Client.mk "a" (some 1) (some 2))
        (SvrSession.mk 1 1 (Bytes.lit [1])
          (authCiphertext.mk (Bytes.lit [0]) (Bytes.lit [1])) : SvrSession 5)
        "pw"
      = some (.error .invalidHmacTag, Client.mk "a" (some 1) (some 2))) ∧
      (Client.SessionKey (Client.mk "a" (some 1) (some 2))
        (SvrSession.mk 1 1 (Bytes.lit [9])
          (authCiphertext.mk
            (Bytes.append
              (Bytes.aesCtrXor
                (Bytes.hkdfCipherKey (oprfB 1 2 (Bytes.sha3_512 (.str "pw"))))
                (Bytes.marshalCtd 1 1 1))
              (Bytes.hmacSha3_256
                (Bytes.hkdfAuthKey (oprfB 1 2 (Bytes.sha3_512 (.str "pw"))))
                (Bytes.lit [])))
            (Bytes.aesCtrXor
              (Bytes.hkdfCipherKey (oprfB 1 2 (Bytes.sha3_512 (.str "pw"))))
              (Bytes.marshalCtd 1 1 1))) : SvrSession 5)
        "pw"
      = some (.error .serverAuthFailed, Client.mk "a" (some 1) (some 2))) ∧
      PakeError.invalidHmacTag ≠ PakeError.serverAuthFailed := by
  refine ⟨by decide, by decide, by decide⟩

/-- C7 (amended): the three client-side verification failures of
Client.SessionKey surface as three distinct error values: envelope tag
mismatch returns invalidHmacTag, envelope decrypt/parse failure returns
the json.Unmarshal error, and server confirmation fk1 mismatch returns
serverAuthFailed — the causes are distinguishable by the caller, not one
single opaque error. -/
theorem client_failures_distinct_errors {q : Nat} (c : Client q)
    (svr : SvrSession q) (pw : String) (r xu : Scalar q)
    (h1 : c.r = some r) (h2 : c.xu = some xu) :
    (hmacSha3Sum
          (deriveHKDFKeys (oprfB svr.Beta r (Bytes.sha3_512 (.str pw)))).1
          (Bytes.lit []) svr.c.Ciphertext ≠ svr.c.Tag →
        Client.SessionKey c svr pw = some (.error .invalidHmacTag, c)) ∧
      (hmacSha3Sum
          (deriveHKDFKeys (oprfB svr.Beta r (Bytes.sha3_512 (.str pw)))).1
          (Bytes.lit []) svr.c.Ciphertext = svr.c.Tag →
        unmarshalCtd (xorKeystream
          (deriveHKDFKeys (oprfB svr.Beta r (Bytes.sha3_512 (.str pw)))).2
          svr.c.Ciphertext) = none →
        Client.SessionKey c svr pw = some (.error .jsonUnmarshal, c)) ∧
      (∀ ca : ciphertextData q,
        hmacSha3Sum
          (deriveHKDFKeys (oprfB svr.Beta r (Bytes.sha3_512 (.str pw)))).1
          (Bytes.lit []) svr.c.Ciphertext = svr.c.Tag →
        unmarshalCtd (xorKeystream
          (deriveHKDFKeys (oprfB svr.Beta r (Bytes.sha3_512 (.str pw)))).2
          svr.c.Ciphertext) = some ca →
        prf (keUser ca.pu xu ca.Ps svr.Xs) (Bytes.lit [1]) ≠ svr.fk1 →
        Client.SessionKey c svr pw = some (.error .serverAuthFailed, c)) := by
  refine ⟨?_, ?_, ?_⟩
  · intro hne
    simp only [Client.SessionKey, h1]
    rw [if_neg hne]
  · intro heq hnone
    simp only [Client.SessionKey, h1]
    rw [if_pos heq, hnone]
  · intro ca heq hsome hfk
    simp only [Client.SessionKey, h1]
    rw [if_pos heq, hsome]
    simp only [h2]
    rw [if_neg hfk]

/-- witness for the amended C7 at q = 5: a concrete client and server
message with a mismatching tag returns the invalidHmacTag error. -/
theorem client_failures_distinct_errors_witness :
    Client.SessionKey (Client.mk "a" (some 1) (some 2))
        (SvrSession.mk 1 1 (Bytes.lit [1])
          (authCiphertext.mk (Bytes.lit [0]) (Bytes.lit [1])) : SvrSession 5)
        "pw"
      = some (.error .invalidHmacTag, Client.mk "a" (some 1) (some 2)) :=
  (client_failures_distinct_errors (Client.mk "a" (some 1) (some 2))
    (SvrSession.mk 1 1 (Bytes.lit [1])
      (authCiphertext.mk (Bytes.lit [0]) (Bytes.lit [1])))
    "pw" 2 1 rfl rfl).1 (by decide)

/-- C8 counterexample: a client that completed NewSession with blinding
scalar r = 2 finishes a successful SessionKey run, and afterwards still
holds r = 2 — the blinding scalar is not destroyed. -/
theorem blinding_scalar_retained :
    ∃ (us : UsrSession 5) (c1 : Client 5) (e : Option PakeError),
      Client.NewSession (NewClient 5 "alice") "pw" 4 2 = (us, c1, e) ∧
      ∃ (sk fk2 : Bytes 5) (c2 : Client 5),
        Client.SessionKey c1
            (SvrSession.mk 1 1
              (prf (keUser 1 4 1 1) (Bytes.lit [1]))
              (authCiphertext.mk
                (Bytes.append
                  (Bytes.aesCtrXor
                    (Bytes.hkdfCipherKey
                      (oprfB 1 2 (Bytes.sha3_512 (.str "pw"))))
                    (Bytes.marshalCtd 1 1 1))
                  (Bytes.hmacSha3_256
                    (Bytes.hkdfAuthKey
                      (oprfB 1 2 (Bytes.sha3_512 (.str "pw"))))
                    (Bytes.lit [])))
                (Bytes.aesCtrXor
                  (Bytes.hkdfCipherKey
                    (oprfB 1 2 (Bytes.sha3_512 (.str "pw"))))
                  (Bytes.marshalCtd 1 1 1))))
            "pw"
          = some (.ok (sk, fk2), c2) ∧
        c2.r = some 2 ∧ c2.r ≠ none := by
  refine ⟨_, _, _, rfl, prf (keUser 1 4 1 1) (Bytes.lit [0]),
    prf (keUser 1 4 1 1) (Bytes.lit [2]),
    Client.mk "alice" (some 4) (some 2), by decide, by decide, by decide⟩

/-- C8 (amended): Client.SessionKey writes no field of its receiver — on
every non-panicking return, success or failure, the client state after
the call equals the state before, so the blinding scalar r stored by
NewSession is retained, not destroyed or zeroized (the clear helper is
never invoked). -/
theorem sessionKey_preserves_client_state {q : Nat} (c : Client q)
    (svr : SvrSession q) (pw : String)
    (res : Except PakeError (Bytes q × Bytes q)) (cAfter : Client q)
    (h : Client.SessionKey c svr pw = some (res, cAfter)) :
    cAfter = c ∧ cAfter.r = c.r := by
  suffices hc : cAfter = c by exact ⟨hc, by rw [hc]⟩
  unfold Client.SessionKey at h
  cases hcr : c.r with
  | none =>
    rw [hcr] at h
    simp at h
  | some r =>
    rw [hcr] at h
    dsimp only at h
    split at h
    · split at h
      · simp only [Option.some.injEq, Prod.mk.injEq] at h
        exact h.2.symm
      · split at h
        · simp at h
        · split at h
          · simp only [Option.some.injEq, Prod.mk.injEq] at h
            exact h.2.symm
          · simp only [Option.some.injEq, Prod.mk.injEq] at h
            exact h.2.symm
    · simp only [Option.some.injEq, Prod.mk.injEq] at h
      exact h.2.symm

/-- witness for the amended C8 at q = 5 on a concrete failing run. -/
theorem sessionKey_preserves_client_state_witness :
    (Client.mk "a" (some 1) (some 2) : Client 5)
        = Client.mk "a" (some 1) (some 2) ∧
      (Client.mk "a" (some 1) (some 2) : Client 5).r
        = (Client.mk "a" (some 1) (some 2) : Client 5).r :=
  sessionKey_preserves_client_state (Client.mk "a" (some 1) (some 2))
    (SvrSession.mk 1 1 (Bytes.lit [1])
      (authCiphertext.mk (Bytes.lit [0]) (Bytes.lit [1])))
    "pw" (.error .invalidHmacTag) (Client.mk "a" (some 1) (some 2))
    (by decide)

end Occlude
